import Mathlib

/-!
Verification of the autoflags repository (struct-tag-driven flag binder).

The development shallowly embeds the core of `flag.go`: the tag parser
(`getTag`) and the recursive field walker (`bindFlags` / `readFlags`),
together with the small helper functions `parseTag`,
`isAnonymousCaredField` and `revertAnonymousParentPrefix`.

The repository contains two versions of the package: the file `flag.go`
and a second revision of the same file (shipped here as an unnamed source
part) whose `parseTag` additionally checks `field.IsExported()` and whose
prefix logic uses `isStepInto` instead of `isAnonymousCaredField`.  The
primary model below follows `flag.go`; the second revision's `parseTag`
and `getTag` are embedded separately (`getTagV2` / `parseTagV2`).

Modelling conventions:
* Go strings are lists of characters (`GoStr`).  Byte indexing in the
  source only ever inspects the last byte of a token against the ASCII
  escape marker, which coincides with the last character.
* The configured tag-label separator is modelled as a single character;
  the library's separators are the one-character defaults "," and ":".
* Go map writes/reads become prepend/first-match on an association list,
  which gives the same last-write-wins semantics; a missing key reads as
  the empty string, as a Go map read does.
* Go runtime panics (out-of-range indexing in the token loop, reflect
  panics) are made explicit as `Except GoPanic` results and as the
  `Outcome.panic` result of a walk.
* Field values only record what the walk observes: the reflection kind,
  struct shape and pointer nil-ness.  Stored scalar contents never
  influence the walk, registration arguments keep the raw default text
  (conversion by `stringx` helpers is a collaborator concern outside the
  walker, per the spec's scope).
-/

deriving instance DecidableEq for Except

namespace Autoflags

/-- Go strings, modelled as lists of characters. -/
abbrev GoStr := List Char

/-- Convenience coercion from Lean string literals into the model. -/
def gs (s : String) : GoStr := s.toList

/-- `strings.Split` with a single-character separator (the library's
separators "," and ":" are one character). -/
def goSplit (sep : Char) : GoStr → List GoStr
  | [] => [[]]
  | c :: rest =>
    let r := goSplit sep rest
    if c = sep then [] :: r
    else (c :: r.headI) :: r.tail

/-- `strings.Join` with a single-character separator. -/
def goJoin (sep : Char) : List GoStr → GoStr
  | [] => []
  | s :: rest =>
    match rest with
    | [] => s
    | _ :: _ => s ++ sep :: goJoin sep rest

/-- Leading-whitespace removal, the left half of `strings.TrimSpace`. -/
def goTrimLeft (s : GoStr) : GoStr := s.dropWhile Char.isWhitespace

/-- Trailing-whitespace removal, the right half of `strings.TrimSpace`. -/
def goTrimRight (s : GoStr) : GoStr := (s.reverse.dropWhile Char.isWhitespace).reverse

/-- `strings.TrimSpace`. -/
def goTrim (s : GoStr) : GoStr := goTrimRight (goTrimLeft s)

/-- The `settings` map of `getTag`: an association list where a later
write shadows an earlier one (prepend / first match). -/
abbrev Settings := List (GoStr × GoStr)

/-- Go map write `settings[k] = v`. -/
def setPut (st : Settings) (k v : GoStr) : Settings := (k, v) :: st

/-- Go map read `settings[k]` (missing keys read as the empty string). -/
def setGet (st : Settings) (k : GoStr) : GoStr :=
  ((st.find? (fun e => e.1 == k)).map (fun e => e.2)).getD []

/-- Go map presence test `_, ok := settings[k]`. -/
def setHas (st : Settings) (k : GoStr) : Bool := st.any (fun e => e.1 == k)

/-- Go runtime panics that the embedded code can hit. -/
inductive GoPanic where
  /-- Out-of-range string/slice indexing inside the `getTag` token loop. -/
  | indexOutOfRange
  /-- `reflect.Value.Elem` on a non-pointer value (in `readFlags`). -/
  | elemOnNonPointer
  /-- `reflect`'s panic when the walked pointee is not a struct (hit at
  `NumField`/`Type` on an int pointee or on the zero `Value` obtained
  from a nil top-level pointer). -/
  | numFieldOnNonStruct
  /-- `reflect`'s read-only panic when `Interface()`/`Set` is applied to
  a value obtained from an unexported field. -/
  | unexportedField
  deriving DecidableEq, Repr

/-- The `tagData` record of `flag.go`. -/
structure TagData where
  origin : GoStr
  Name : GoStr
  Short : GoStr
  Desc : GoStr
  Default : GoStr
  squash : Bool
  deriving DecidableEq, Repr

/-- The fields of `FlagConfig` that the tag parser and walker consult.
The auto-unmarshal callbacks of the Go struct never reach the core walk
and are omitted. -/
structure FlagConfig where
  ignoreUntaggedFields : Bool
  squash : Bool
  parent : List GoStr
  tagName : GoStr
  tagLabelSep : Char
  deriving DecidableEq, Repr

/-- Replace the mutable `parent` slice of a configuration. -/
def FlagConfig.withParent (cfg : FlagConfig) (p : List GoStr) : FlagConfig :=
  ⟨cfg.ignoreUntaggedFields, cfg.squash, p, cfg.tagName, cfg.tagLabelSep⟩

/-- `defaultFlagConfig()`: tag name "flag", separator ",", squash on,
untagged fields not ignored, empty parent path. -/
def defaultFlagConfig : FlagConfig := ⟨false, true, [], gs "flag", ','⟩

/-- One `label` / `label:value` token becomes a settings update: split on
":", the trimmed head is the key; with a value the remainder re-joined by
":" is stored, a bare non-empty label stores itself. -/
def tokUpd (st : Settings) (t : GoStr) : Settings :=
  let values := goSplit ':' t
  let k := goTrim values.headI
  if 2 ≤ values.length then setPut st k (goJoin ':' values.tail)
  else if k ≠ [] then setPut st k k
  else st

/-- The token loop of `getTag` over the tokens after position 0, with the
escape-merging inner loop fused in.  `t` is the token currently being
merged, `rest` the unconsumed tokens.  Mirrors the Go loop exactly,
including its two out-of-range panics: indexing the last byte of an empty
token, and indexing one token past the end after stripping a trailing
escape marker. -/
def procCur (sep : Char) (st : Settings) (t : GoStr) : List GoStr → Except GoPanic Settings
  | [] =>
    if t = [] then .error .indexOutOfRange
    else if t.getLast? = some '\\' then .error .indexOutOfRange
    else .ok (tokUpd st t)
  | r :: rs =>
    if t = [] then .error .indexOutOfRange
    else if t.getLast? = some '\\' then procCur sep st (t.dropLast ++ sep :: r) rs
    else procCur sep (tokUpd st t) r rs

/-- All tokens after position 0, processed left to right. -/
def procToks (sep : Char) (st : Settings) : List GoStr → Except GoPanic Settings
  | [] => .ok st
  | t :: rest => procCur sep st t rest

/-- The looked-up tag of a struct field.  `tagOf` is the result of
`field.Tag.Lookup(cfg.tagName)`; `fname` is `field.Name`, `exported` is
`field.IsExported()`, `anonymous` is `field.Anonymous`. -/
structure FieldMeta where
  fname : GoStr
  exported : Bool
  anonymous : Bool
  tagOf : Option GoStr
  deriving DecidableEq, Repr

/-- `getTag` of `flag.go`: split the trimmed tag on the separator, store
the trimmed first token under the tag name, run the token loop, then
build the `tagData`: name falling back to the lower-cased field name,
skip sentinel "-" yielding nil, origin recorded before the dot-joined
parent prefix is applied (only when the global squash flag is off). -/
def getTagE (fm : FieldMeta) (cfg : FlagConfig) : Except GoPanic (Option TagData) :=
  if cfg.ignoreUntaggedFields = true ∧ fm.tagOf = none then .ok none
  else
    let fulls := fm.tagOf.getD []
    let names := goSplit cfg.tagLabelSep (goTrim fulls)
    let st0 := setPut [] cfg.tagName (goTrim names.headI)
    match procToks cfg.tagLabelSep st0 names.tail with
    | .error p => .error p
    | .ok st =>
      let name0 := setGet st cfg.tagName
      let name1 := if name0 = [] then fm.fname.map Char.toLower else name0
      if name1 = gs "-" then .ok none
      else
        let nm :=
          if cfg.squash = false ∧ cfg.parent ≠ [] then
            goJoin '.' cfg.parent ++ '.' :: name1
          else name1
        .ok (some ⟨name1, nm, setGet st (gs "short"), setGet st (gs "desc"),
          setGet st (gs "default"), setHas st (gs "squash")⟩)

/-- `getTag` of the second revision: identical token processing, but the
skip sentinel is tested on the raw first-token value before the field
name fallback, and the squash label only takes effect on steppable
(struct / pointer-to-struct) fields.  `stepInto` is `isStepInto(field)`
computed by the caller. -/
def getTagV2 (stepInto : Bool) (fm : FieldMeta) (cfg : FlagConfig) :
    Except GoPanic (Option TagData) :=
  if cfg.ignoreUntaggedFields = true ∧ fm.tagOf = none then .ok none
  else
    let fulls := fm.tagOf.getD []
    let names := goSplit cfg.tagLabelSep (goTrim fulls)
    let st0 := setPut [] cfg.tagName (goTrim names.headI)
    match procToks cfg.tagLabelSep st0 names.tail with
    | .error p => .error p
    | .ok st =>
      let name0 := setGet st cfg.tagName
      if name0 = gs "-" then .ok none
      else
        let name1 := if name0 = [] then fm.fname.map Char.toLower else name0
        let sq := setHas st (gs "squash") && stepInto
        let nm :=
          if cfg.squash = false ∧ cfg.parent ≠ [] then
            goJoin '.' cfg.parent ++ '.' :: name1
          else name1
        .ok (some ⟨name1, nm, setGet st (gs "short"), setGet st (gs "desc"),
          setGet st (gs "default"), sq⟩)

/-- `parseTag` of the second revision: skips unexported fields before
looking at the tag, then pushes the origin name onto the parent path for
steppable, non-squashed fields.  The updated parent path is returned. -/
def parseTagV2 (stepInto : Bool) (fm : FieldMeta) (cfg : FlagConfig) :
    Except GoPanic (Option TagData × List GoStr) :=
  if fm.exported = false then .ok (none, cfg.parent)
  else
    match getTagV2 stepInto fm cfg with
    | .error p => .error p
    | .ok none => .ok (none, cfg.parent)
    | .ok (some d) =>
      if cfg.squash = false ∧ d.squash = false ∧ stepInto = true then
        .ok (some d, cfg.parent ++ [d.origin])
      else .ok (some d, cfg.parent)

/-- `parseTag` of `flag.go`: no exported-field check; pushes the origin
name onto the parent path when the field is an anonymous cared field and
neither the global nor the tag squash flag is set.  `cared` is
`isAnonymousCaredField(field)` computed by the caller. -/
def parseTagE (cared : Bool) (fm : FieldMeta) (cfg : FlagConfig) :
    Except GoPanic (Option TagData × List GoStr) :=
  match getTagE fm cfg with
  | .error p => .error p
  | .ok none => .ok (none, cfg.parent)
  | .ok (some d) =>
    if cfg.squash = false ∧ d.squash = false ∧ cared = true then
      .ok (some d, cfg.parent ++ [d.origin])
    else .ok (some d, cfg.parent)

/-! ## The field walker -/

mutual
/-- A walked Go value, as far as the walk observes it: the reflection
kind for dispatch, struct shape for recursion and pointer nil-ness.
`vInt64` and `vDuration` both have reflection kind `Int64`; the walker
separates them by the concrete type, as `bindInt64`/`readInt64` do.
`vBadSlice` is a slice whose element kind is neither string nor int;
`vOther` is any other unsupported kind (map, uint, chan, ...). -/
inductive GoVal where
  | vString
  | vBool
  | vInt
  | vInt32
  | vInt64
  | vDuration
  | vFloat32
  | vFloat64
  | vStringSlice
  | vIntSlice
  | vBadSlice
  | vStruct (fields : GoFields)
  | vPtr (pointee : Option GoVal)
  | vOther
  deriving Repr
/-- The declared fields of a struct, in declaration order. -/
inductive GoFields where
  | fnil
  | fcons (fm : FieldMeta) (v : GoVal) (rest : GoFields)
  deriving Repr
end

/-- Reflection kind test: `field.Type.Kind() == reflect.Struct`. -/
def GoVal.isStructKind : GoVal → Bool
  | .vStruct _ => true
  | _ => false

/-- Reflection kind test: `field.Type.Kind() == reflect.Pointer`. -/
def GoVal.isPtrKind : GoVal → Bool
  | .vPtr _ => true
  | _ => false

/-- `isAnonymousCaredField`: anonymous and of struct or pointer kind. -/
def isAnonymousCaredField (fm : FieldMeta) (v : GoVal) : Bool :=
  fm.anonymous && (v.isStructKind || v.isPtrKind)

/-- The kind tag of a registered or read-back flag. -/
inductive FlagKind where
  | str
  | boolean
  | int
  | int32
  | int64
  | duration
  | float32
  | float64
  | strSlice
  | intSlice
  deriving DecidableEq, Repr

/-- One flag registration performed by the bind walk: the arguments the
per-kind `pflag` call receives.  The default value is kept as the raw tag
text; its conversion (`stringx.Atoi` and friends) happens inside the
collaborator call and never feeds back into the walk. -/
structure RegFlag where
  kind : FlagKind
  name : GoStr
  short : GoStr
  dflt : GoStr
  desc : GoStr
  deriving DecidableEq, Repr

/-- The error results the walk can return. -/
inductive WalkErr where
  /-- "v0 must be pointer" from the top of `bindFlags`. -/
  | notPointer
  /-- "nil value of *X" from `bindStructPtr`/`readStructPtr`. -/
  | nilValue (fieldName : GoStr)
  /-- "unsupported type: X|ptr(kind)" when a pointee is not a struct. -/
  | unsupportedPointee (fieldName : GoStr)
  /-- "unsupported slice type" for a bad slice element kind. -/
  | unsupportedSlice (fieldName : GoStr)
  /-- "unsupported type" for any other unsupported field kind. -/
  | unsupportedType (fieldName : GoStr)
  deriving DecidableEq, Repr

/-- How a walk finished. -/
inductive Outcome where
  | ok
  | err (e : WalkErr)
  | panic (p : GoPanic)
  deriving DecidableEq, Repr

/-- Result of a bind walk: the flag registrations performed so far (never
rolled back), the final parent path, and how the walk finished. -/
structure BindRes where
  regs : List RegFlag
  parent : List GoStr
  out : Outcome
  deriving DecidableEq, Repr

/-- Result of a read walk: the (kind, resolved flag name) lookups issued
against viper so far, the final parent path, and how the walk finished. -/
structure ReadRes where
  reads : List (FlagKind × GoStr)
  parent : List GoStr
  out : Outcome
  deriving DecidableEq, Repr

/-- `revertAnonymousParentPrefix`, as run by the deferred call at the end
of `bindStruct`/`bindStructPtr`/`readStruct`/`readStructPtr`: pop the
last parent segment unless the path is empty, the field is not
anonymous, or the global or tag squash flag is set.  The fresh `getTag`
call the source makes here returns the same non-nil data as the one that
entered the subtree (its skip and squash results do not depend on the
parent path), so the tag's squash flag is passed in directly. -/
def popRevert (fm : FieldMeta) (cfgSquash dSquash : Bool) (p : List GoStr) : List GoStr :=
  if p = [] ∨ fm.anonymous = false then p
  else if cfgSquash || dSquash then p
  else p.dropLast

/-- Shared shape of the per-scalar bind handlers (`bindString`,
`bindBool`, ...): re-resolve the tag (unchanged for a scalar field) and
register one flag with name, short alias, raw default and description.
`fValue.Addr().Interface()` panics first on an unexported field. -/
def bindScalar (cfg : FlagConfig) (fm : FieldMeta) (d : TagData) (k : FlagKind) : BindRes :=
  if fm.exported then ⟨[⟨k, d.Name, d.Short, d.Default, d.Desc⟩], cfg.parent, .ok⟩
  else ⟨[], cfg.parent, .panic .unexportedField⟩

/-- Shared shape of the per-scalar read handlers (`readString`, ...):
fetch the value stored under the resolved name and write it into the
field.  `fValue.Set` panics on an unexported field. -/
def readScalar (cfg : FlagConfig) (fm : FieldMeta) (d : TagData) (k : FlagKind) : ReadRes :=
  if fm.exported then ⟨[(k, d.Name)], cfg.parent, .ok⟩
  else ⟨[], cfg.parent, .panic .unexportedField⟩

mutual
/-- The dispatch switch in the loop body of `bindFlags`, for one field
whose `parseTag` returned `d` (with `cfg.parent` already updated by the
push).  Struct fields recurse through `bindStruct`, pointer fields
through `bindStructPtr`; both pop the parent path by a deferred
`revertAnonymousParentPrefix` on every exit, including error and panic
unwinding. -/
def bindOne (cfg : FlagConfig) (fm : FieldMeta) (d : TagData) : GoVal → BindRes
  | .vString => bindScalar cfg fm d .str
  | .vBool => bindScalar cfg fm d .boolean
  | .vInt => bindScalar cfg fm d .int
  | .vInt32 => bindScalar cfg fm d .int32
  | .vInt64 => bindScalar cfg fm d .int64
  | .vDuration => bindScalar cfg fm d .duration
  | .vFloat32 => bindScalar cfg fm d .float32
  | .vFloat64 => bindScalar cfg fm d .float64
  | .vStringSlice => bindScalar cfg fm d .strSlice
  | .vIntSlice => bindScalar cfg fm d .intSlice
  | .vBadSlice => ⟨[], cfg.parent, .err (.unsupportedSlice fm.fname)⟩
  | .vStruct fs =>
    if fm.exported = false then
      ⟨[], popRevert fm cfg.squash d.squash cfg.parent, .panic .unexportedField⟩
    else
      let r := bindFields cfg fs
      ⟨r.regs, popRevert fm cfg.squash d.squash r.parent, r.out⟩
  | .vPtr none =>
    ⟨[], popRevert fm cfg.squash d.squash cfg.parent, .err (.nilValue fm.fname)⟩
  | .vPtr (some (.vStruct fs)) =>
    if fm.exported = false then
      ⟨[], popRevert fm cfg.squash d.squash cfg.parent, .panic .unexportedField⟩
    else
      let r := bindFields cfg fs
      ⟨r.regs, popRevert fm cfg.squash d.squash r.parent, r.out⟩
  | .vPtr (some _) =>
    ⟨[], popRevert fm cfg.squash d.squash cfg.parent, .err (.unsupportedPointee fm.fname)⟩
  | .vOther => ⟨[], cfg.parent, .err (.unsupportedType fm.fname)⟩

/-- The field loop of `bindFlags`: resolve the tag via `parseTag`
(skipping the field on nil), dispatch, and abort on the first error or
panic, keeping the registrations made so far. -/
def bindFields (cfg : FlagConfig) : GoFields → BindRes
  | .fnil => ⟨[], cfg.parent, .ok⟩
  | .fcons fm v rest =>
    match parseTagE (isAnonymousCaredField fm v) fm cfg with
    | .error p => ⟨[], cfg.parent, .panic p⟩
    | .ok (none, p2) => bindFields (cfg.withParent p2) rest
    | .ok (some d, p2) =>
      let r1 := bindOne (cfg.withParent p2) fm d v
      match r1.out with
      | .ok =>
        let r2 := bindFields (cfg.withParent r1.parent) rest
        ⟨r1.regs ++ r2.regs, r2.parent, r2.out⟩
      | _ => r1
end

mutual
/-- The dispatch switch in the loop body of `readFlags`, mirroring
`bindOne` with viper lookups in place of registrations. -/
def readOne (cfg : FlagConfig) (fm : FieldMeta) (d : TagData) : GoVal → ReadRes
  | .vString => readScalar cfg fm d .str
  | .vBool => readScalar cfg fm d .boolean
  | .vInt => readScalar cfg fm d .int
  | .vInt32 => readScalar cfg fm d .int32
  | .vInt64 => readScalar cfg fm d .int64
  | .vDuration => readScalar cfg fm d .duration
  | .vFloat32 => readScalar cfg fm d .float32
  | .vFloat64 => readScalar cfg fm d .float64
  | .vStringSlice => readScalar cfg fm d .strSlice
  | .vIntSlice => readScalar cfg fm d .intSlice
  | .vBadSlice => ⟨[], cfg.parent, .err (.unsupportedSlice fm.fname)⟩
  | .vStruct fs =>
    if fm.exported = false then
      ⟨[], popRevert fm cfg.squash d.squash cfg.parent, .panic .unexportedField⟩
    else
      let r := readFields cfg fs
      ⟨r.reads, popRevert fm cfg.squash d.squash r.parent, r.out⟩
  | .vPtr none =>
    ⟨[], popRevert fm cfg.squash d.squash cfg.parent, .err (.nilValue fm.fname)⟩
  | .vPtr (some (.vStruct fs)) =>
    if fm.exported = false then
      ⟨[], popRevert fm cfg.squash d.squash cfg.parent, .panic .unexportedField⟩
    else
      let r := readFields cfg fs
      ⟨r.reads, popRevert fm cfg.squash d.squash r.parent, r.out⟩
  | .vPtr (some _) =>
    ⟨[], popRevert fm cfg.squash d.squash cfg.parent, .err (.unsupportedPointee fm.fname)⟩
  | .vOther => ⟨[], cfg.parent, .err (.unsupportedType fm.fname)⟩

/-- The field loop of `readFlags`.  Unlike `bindFlags` it resolves the
tag through plain `getTag`, so the parent path is never pushed during a
read walk. -/
def readFields (cfg : FlagConfig) : GoFields → ReadRes
  | .fnil => ⟨[], cfg.parent, .ok⟩
  | .fcons fm v rest =>
    match getTagE fm cfg with
    | .error p => ⟨[], cfg.parent, .panic p⟩
    | .ok none => readFields cfg rest
    | .ok (some d) =>
      let r1 := readOne cfg fm d v
      match r1.out with
      | .ok =>
        let r2 := readFields (cfg.withParent r1.parent) rest
        ⟨r1.reads ++ r2.reads, r2.parent, r2.out⟩
      | _ => r1
end

/-- `bindFlags` entry: reject a non-pointer argument with the
invalid-argument error; a pointer whose (possibly missing) pointee is
not a struct passes that check and panics inside `reflect` when the
field loop starts. -/
def bindTop (cfg : FlagConfig) (v0 : GoVal) : BindRes :=
  match v0 with
  | .vPtr (some (.vStruct fs)) => bindFields cfg fs
  | .vPtr _ => ⟨[], cfg.parent, .panic .numFieldOnNonStruct⟩
  | _ => ⟨[], cfg.parent, .err .notPointer⟩

/-- `readFlags` entry: no validation at all; `reflect.Value.Elem` panics
on a non-pointer argument, and a pointer to a non-struct panics when the
field loop starts. -/
def readTop (cfg : FlagConfig) (v0 : GoVal) : ReadRes :=
  match v0 with
  | .vPtr (some (.vStruct fs)) => readFields cfg fs
  | .vPtr _ => ⟨[], cfg.parent, .panic .numFieldOnNonStruct⟩
  | _ => ⟨[], cfg.parent, .panic .elemOnNonPointer⟩

/-- Flag names registered by a bind walk, in registration order. -/
def bindNames (cfg : FlagConfig) (v0 : GoVal) : List GoStr :=
  (bindTop cfg v0).regs.map (fun r => r.name)

/-- Flag names fetched by a read walk, in fetch order. -/
def readNames (cfg : FlagConfig) (v0 : GoVal) : List GoStr :=
  (readTop cfg v0).reads.map (fun e => e.2)

/-- A squash-off configuration, as produced by `WithSquashOption(false)`. -/
def cfgNoSquash : FlagConfig := ⟨false, false, [], gs "flag", ','⟩

/-- Concatenation of field lists, for stating walk-decomposition facts. -/
def GoFields.fappend : GoFields → GoFields → GoFields
  | .fnil, g => g
  | .fcons fm v rest, g => .fcons fm v (rest.fappend g)

/-- The (kind, resolved name) key of a registration, for comparing the
bind trace with the read trace. -/
def regKey (r : RegFlag) : FlagKind × GoStr := (r.kind, r.name)

/-- True when the string is empty or starts with a non-whitespace
character (so left trimming leaves it unchanged). -/
def headNonWS : GoStr → Bool
  | [] => true
  | c :: _ => !c.isWhitespace

/-- True when the string is empty or ends with a non-whitespace
character (so right trimming leaves it unchanged). -/
def lastNonWS (s : GoStr) : Bool := headNonWS s.reverse

/-- True when the final token of a token list does not end in the escape
marker (vacuously true for an empty list). -/
def lastTokSafe (toks : List GoStr) : Bool :=
  match toks.getLast? with
  | none => true
  | some u => !(u.getLast? == some '\\')

/-- The labels enumerated by claim C8: `short:v`, `desc:v`, `default:v`
and bare `squash`. -/
inductive C8Label where
  | lshort (v : GoStr)
  | ldesc (v : GoStr)
  | ldefault (v : GoStr)
  | lsquash
  deriving DecidableEq, Repr

/-- The raw token text of one C8 label. -/
def C8Label.render : C8Label → GoStr
  | .lshort v => gs "short" ++ ':' :: v
  | .ldesc v => gs "desc" ++ ':' :: v
  | .ldefault v => gs "default" ++ ':' :: v
  | .lsquash => gs "squash"

/-- Well-formedness of a C8 label payload: no separator, no escape
marker, no trailing whitespace (so the global trim of the raw tag cannot
disturb the token structure). -/
def C8Label.wf : C8Label → Prop
  | .lshort v => ',' ∉ v ∧ '\\' ∉ v ∧ lastNonWS v = true
  | .ldesc v => ',' ∉ v ∧ '\\' ∉ v ∧ lastNonWS v = true
  | .ldefault v => ',' ∉ v ∧ '\\' ∉ v ∧ lastNonWS v = true
  | .lsquash => True

instance : DecidablePred C8Label.wf := by
  intro l
  cases l <;> simp only [C8Label.wf] <;> infer_instance

/-- A raw tag whose first token is the skip sentinel, followed by the
given labels. -/
def skipTag (ls : List C8Label) : GoStr :=
  '-' :: (ls.map (fun l => ',' :: l.render)).flatten

/-! ### Concrete walk scenarios used by the claims -/

/-- A one-field struct body: `Name string` tagged `flag:"name"`. -/
def innerName : GoFields := .fcons ⟨gs "Name", true, false, some (gs "name")⟩ .vString .fnil

/-- `&struct` with an embedded anonymous struct field `Child` (no tag)
containing `Name`. -/
def anonChild : GoVal :=
  .vPtr (some (.vStruct (.fcons ⟨gs "Child", true, true, none⟩ (.vStruct innerName) .fnil)))

/-- `&struct` with a plain named field `Child` (tag `flag:"child"`,
not anonymous) containing `Name`, then `Addr string` tagged `addr`. -/
def namedChild : GoVal :=
  .vPtr (some (.vStruct (.fcons ⟨gs "Child", true, false, some (gs "child")⟩
    (.vStruct innerName)
    (.fcons ⟨gs "Addr", true, false, some (gs "addr")⟩ .vString .fnil))))

/-- The claim C4 family: field `Child` with anonymity `a` and tag
`flag:",squash"` (when `sq`) or `flag:"child"` (otherwise), followed by
`Addr string` tagged `addr`. -/
def sqChild (a sq : Bool) : GoVal :=
  .vPtr (some (.vStruct (.fcons ⟨gs "Child", true, a,
      some (if sq then gs ",squash" else gs "child")⟩
    (.vStruct innerName)
    (.fcons ⟨gs "Addr", true, false, some (gs "addr")⟩ .vString .fnil))))

/-- `&struct` containing `A string` tagged `a`, a nil pointer-to-struct
field `P` tagged `p`, then `B string` tagged `b`. -/
def nilStruct : GoVal :=
  .vPtr (some (.vStruct (.fcons ⟨gs "A", true, false, some (gs "a")⟩ .vString
    (.fcons ⟨gs "P", true, false, some (gs "p")⟩ (.vPtr none)
    (.fcons ⟨gs "B", true, false, some (gs "b")⟩ .vString .fnil)))))

/-- An unexported but tagged field: `name string` with tag `flag:"x"`. -/
def unexpField : FieldMeta := ⟨gs "name", false, false, some (gs "x")⟩

/-- `&struct` whose only field is unexported but tagged: `name string`
with tag `flag:"x"`. -/
def unexpStruct : GoVal := .vPtr (some (.vStruct (.fcons unexpField .vString .fnil)))

/-- The claim C4 pointer variant: the `Child` field holds a non-nil
pointer to the inner struct instead of the struct itself. -/
def sqChildPtr (a sq : Bool) : GoVal :=
  .vPtr (some (.vStruct (.fcons ⟨gs "Child", true, a,
      some (if sq then gs ",squash" else gs "child")⟩
    (.vPtr (some (.vStruct innerName)))
    (.fcons ⟨gs "Addr", true, false, some (gs "addr")⟩ .vString .fnil))))

/-- A well-formed tagged field used as the C1 witness. -/
def portField : FieldMeta := ⟨gs "Port", true, false, some (gs "port,short:P,default:1")⟩

/-- A field whose tag ends in a trailing separator (C1 counterexample). -/
def trailSepField : FieldMeta := ⟨gs "F", true, false, some (gs "name,")⟩

/-- A field whose tag starts with the skip sentinel but carries all four
other labels (C7 counterexample). -/
def skipAllField : FieldMeta := ⟨gs "F", true, false, some (gs "-,short:S,desc:D,default:V")⟩

/-- Field list `A string` tagged `a` (C10 witness prefix). -/
def fsA : GoFields := .fcons ⟨gs "A", true, false, some (gs "a")⟩ .vString .fnil

/-- Field list `B string` tagged `b` (C10 witness suffix). -/
def fsB : GoFields := .fcons ⟨gs "B", true, false, some (gs "b")⟩ .vString .fnil

/-- The nil pointer-to-struct field `P` tagged `p` (C10 witness). -/
def fmP : FieldMeta := ⟨gs "P", true, false, some (gs "p")⟩

/-- The tag data `P`'s tag resolves to (C10 witness). -/
def dP : TagData := ⟨gs "p", gs "p", [], [], [], false⟩

/-! ## Helper lemmas: splitting, joining, trimming -/

theorem goSplit_ne_nil (sep : Char) (s : GoStr) : goSplit sep s ≠ [] := by
  cases s with
  | nil => simp [goSplit]
  | cons c rest => simp only [goSplit]; split <;> simp

theorem goSplit_not_mem {sep : Char} {s : GoStr} (h : sep ∉ s) : goSplit sep s = [s] := by
  induction s with
  | nil => rfl
  | cons c rest ih =>
    simp only [List.mem_cons, not_or] at h
    simp [goSplit, ih h.2, Ne.symm h.1]

theorem goSplit_append {sep : Char} {a b : GoStr} (h : sep ∉ a) :
    goSplit sep (a ++ sep :: b) = a :: goSplit sep b := by
  induction a with
  | nil => simp [goSplit]
  | cons c rest ih =>
    simp only [List.mem_cons, not_or] at h
    simp [goSplit, ih h.2, Ne.symm h.1]

theorem goJoin_goSplit (sep : Char) (s : GoStr) : goJoin sep (goSplit sep s) = s := by
  induction s with
  | nil => rfl
  | cons c rest ih =>
    simp only [goSplit]
    rcases hr : goSplit sep rest with _ | ⟨h1, t1⟩
    · exact absurd hr (goSplit_ne_nil sep rest)
    · rw [hr] at ih
      by_cases hc : c = sep
      · subst hc
        simp only [if_pos rfl, goJoin]
        cases t1 <;> simp_all [goJoin]
      · simp only [if_neg hc, List.headI, List.tail]
        cases t1 <;> simp_all [goJoin]

theorem getLast?_append_right {a b : GoStr} (h : b ≠ []) :
    (a ++ b).getLast? = b.getLast? := by
  rcases b with _ | ⟨x, xs⟩
  · exact absurd rfl h
  · rw [List.getLast?_append]
    rcases hx : (x :: xs).getLast? with _ | u
    · exact absurd (List.getLast?_eq_none_iff.mp hx) (by simp)
    · rfl

theorem not_esc_of_not_mem {s : GoStr} (h : '\\' ∉ s) : s.getLast? ≠ some '\\' :=
  fun hc => h (List.mem_of_getLast?_eq_some hc)

theorem goTrimLeft_eq_self {s : GoStr} (h : headNonWS s = true) : goTrimLeft s = s := by
  cases s with
  | nil => rfl
  | cons c t =>
    simp only [headNonWS, Bool.not_eq_true'] at h
    simp [goTrimLeft, List.dropWhile_cons, h]

theorem goTrimRight_eq_self {s : GoStr} (h : lastNonWS s = true) : goTrimRight s = s := by
  unfold goTrimRight
  rw [show s.reverse.dropWhile Char.isWhitespace = goTrimLeft s.reverse from rfl]
  rw [goTrimLeft_eq_self h, List.reverse_reverse]

theorem goTrim_eq_self {s : GoStr} (h1 : headNonWS s = true) (h2 : lastNonWS s = true) :
    goTrim s = s := by
  unfold goTrim
  rw [goTrimLeft_eq_self h1, goTrimRight_eq_self h2]

theorem headNonWS_append {a b : GoStr} (h : a ≠ []) : headNonWS (a ++ b) = headNonWS a := by
  cases a with
  | nil => exact absurd rfl h
  | cons c t => rfl

theorem lastNonWS_append {a b : GoStr} (h : b ≠ []) : lastNonWS (a ++ b) = lastNonWS b := by
  unfold lastNonWS
  rw [List.reverse_append]
  exact headNonWS_append (by simpa using h)

theorem lastNonWS_cons {c : Char} {v : GoStr} (h : v ≠ []) : lastNonWS (c :: v) = lastNonWS v := by
  have : c :: v = [c] ++ v := rfl
  rw [this, lastNonWS_append h]

/-! ## Helper lemmas: the settings map -/

theorem setGet_put_eq {st : Settings} {k v : GoStr} : setGet (setPut st k v) k = v := by
  simp [setGet, setPut, List.find?_cons_of_pos]

theorem setGet_put_ne {st : Settings} {k1 k2 v : GoStr} (h : (k1 == k2) = false) :
    setGet (setPut st k1 v) k2 = setGet st k2 := by
  simp [setGet, setPut, List.find?_cons_of_neg, h]

theorem setHas_put {st : Settings} {k1 k2 v : GoStr} :
    setHas (setPut st k1 v) k2 = ((k1 == k2) || setHas st k2) := by
  simp [setHas, setPut]

/-! ## Helper lemmas: the token loop -/

theorem procCur_step {sep : Char} {st : Settings} {t : GoStr} {rest : List GoStr}
    (h1 : t ≠ []) (h2 : t.getLast? ≠ some '\\') :
    procCur sep st t rest = procToks sep (tokUpd st t) rest := by
  cases rest <;> simp [procCur, procToks, h1, h2]

theorem procCur_merge {sep : Char} {st : Settings} {t r : GoStr} {rs : List GoStr}
    (h1 : t ≠ []) (h2 : t.getLast? = some '\\') :
    procCur sep st t (r :: rs) = procCur sep st (t.dropLast ++ sep :: r) rs := by
  simp [procCur, h1, h2]

/-! ## Helper lemmas: configurations and parseTag -/

@[simp]
theorem withParent_parent (cfg : FlagConfig) (p : List GoStr) :
    (cfg.withParent p).parent = p := rfl

@[simp]
theorem withParent_squash (cfg : FlagConfig) (p : List GoStr) :
    (cfg.withParent p).squash = cfg.squash := rfl

@[simp]
theorem withParent_self (cfg : FlagConfig) : cfg.withParent cfg.parent = cfg := rfl

theorem parseTagE_none_parent {c : Bool} {fm : FieldMeta} {cfg : FlagConfig} {p2 : List GoStr}
    (h : parseTagE c fm cfg = .ok (none, p2)) : p2 = cfg.parent := by
  rcases hg : getTagE fm cfg with q | od
  · simp [parseTagE, hg] at h
  · rcases od with _ | d
    · simp [parseTagE, hg] at h
      exact h.symm
    · simp only [parseTagE, hg] at h
      split at h <;> simp at h

theorem parseTagE_some {c : Bool} {fm : FieldMeta} {cfg : FlagConfig} {d : TagData}
    {p2 : List GoStr} (h : parseTagE c fm cfg = .ok (some d, p2)) :
    getTagE fm cfg = .ok (some d) ∧
      p2 = (if cfg.squash = false ∧ d.squash = false ∧ c = true
        then cfg.parent ++ [d.origin] else cfg.parent) := by
  rcases hg : getTagE fm cfg with q | od
  · simp [parseTagE, hg] at h
  · rcases od with _ | d0
    · simp [parseTagE, hg] at h
    · simp only [parseTagE, hg] at h
      by_cases hc : cfg.squash = false ∧ d0.squash = false ∧ c = true
      · rw [if_pos hc] at h
        simp only [Except.ok.injEq, Prod.mk.injEq, Option.some.injEq] at h
        obtain ⟨hd, hp⟩ := h
        subst hd
        exact ⟨rfl, by rw [if_pos hc, hp]⟩
      · rw [if_neg hc] at h
        simp only [Except.ok.injEq, Prod.mk.injEq, Option.some.injEq] at h
        obtain ⟨hd, hp⟩ := h
        subst hd
        exact ⟨rfl, by rw [if_neg hc, hp]⟩

theorem parseTagE_of_getTag_some {c : Bool} {fm : FieldMeta} {cfg : FlagConfig}
    {d : TagData} (h : getTagE fm cfg = .ok (some d)) :
    parseTagE c fm cfg = .ok (some d,
      if cfg.squash = false ∧ d.squash = false ∧ c = true
      then cfg.parent ++ [d.origin] else cfg.parent) := by
  unfold parseTagE
  rw [h]
  show (if cfg.squash = false ∧ d.squash = false ∧ c = true
      then Except.ok (some d, cfg.parent ++ [d.origin])
      else Except.ok (some d, cfg.parent)) = _
  split <;> rfl

theorem cared_of_structlike {fm : FieldMeta} {v : GoVal}
    (h : (v.isStructKind || v.isPtrKind) = true) :
    isAnonymousCaredField fm v = fm.anonymous := by
  simp [isAnonymousCaredField, h]

theorem cared_of_scalar {fm : FieldMeta} {v : GoVal}
    (h : (v.isStructKind || v.isPtrKind) = false) :
    isAnonymousCaredField fm v = false := by
  simp [isAnonymousCaredField, h]

theorem popRevert_push_eq (fm : FieldMeta) (sq dsq : Bool) (p : List GoStr) (o : GoStr) :
    popRevert fm sq dsq
      (if sq = false ∧ dsq = false ∧ fm.anonymous = true then p ++ [o] else p) = p := by
  by_cases h : sq = false ∧ dsq = false ∧ fm.anonymous = true
  · rw [if_pos h]
    unfold popRevert
    rw [if_neg (by simp [h.2.2]), if_neg (by simp [h.1, h.2.1])]
    exact List.dropLast_concat
  · rw [if_neg h]
    unfold popRevert
    by_cases h1 : p = [] ∨ fm.anonymous = false
    · rw [if_pos h1]
    · rw [if_neg h1]
      push_neg at h h1
      have han : fm.anonymous = true := by
        cases hfa : fm.anonymous
        · exact absurd hfa h1.2
        · rfl
      have : (sq || dsq) = true := by
        by_cases hs : sq = false
        · have := h hs
          by_cases hd : dsq = false
          · exact absurd han (this hd)
          · simp [Bool.of_not_eq_false hd]
        · simp [Bool.of_not_eq_false hs]
      rw [if_pos this]

/-! ## Parent-path balance of the bind walk -/

theorem bindScalar_parent (cfg : FlagConfig) (fm : FieldMeta) (d : TagData) (k : FlagKind) :
    (bindScalar cfg fm d k).parent = cfg.parent := by
  unfold bindScalar
  split <;> rfl

theorem readScalar_parent (cfg : FlagConfig) (fm : FieldMeta) (d : TagData) (k : FlagKind) :
    (readScalar cfg fm d k).parent = cfg.parent := by
  unfold readScalar
  split <;> rfl

mutual
theorem bindOne_parent_eq (cfg : FlagConfig) (fm : FieldMeta) (d : TagData) (v : GoVal) :
    (bindOne cfg fm d v).parent =
      if (v.isStructKind || v.isPtrKind) = true
      then popRevert fm cfg.squash d.squash cfg.parent
      else cfg.parent := by
  cases v with
  | vStruct fs =>
    have hb := bindFields_parent_eq cfg fs
    by_cases he : fm.exported = false <;>
      simp [bindOne, he, GoVal.isStructKind, GoVal.isPtrKind, hb]
  | vPtr po =>
    rcases po with _ | pv
    · simp [bindOne, GoVal.isStructKind, GoVal.isPtrKind]
    · cases pv with
      | vStruct fs =>
        have hb := bindFields_parent_eq cfg fs
        by_cases he : fm.exported = false <;>
          simp [bindOne, he, GoVal.isStructKind, GoVal.isPtrKind, hb]
      | _ => simp [bindOne, GoVal.isStructKind, GoVal.isPtrKind]
  | _ =>
    simp [bindOne, bindScalar_parent, GoVal.isStructKind, GoVal.isPtrKind]

theorem bindFields_parent_eq (cfg : FlagConfig) (fs : GoFields) :
    (bindFields cfg fs).parent = cfg.parent := by
  cases fs with
  | fnil => rfl
  | fcons fm v rest =>
    rcases hp : parseTagE (isAnonymousCaredField fm v) fm cfg with q | ⟨od, p2⟩
    · simp [bindFields, hp]
    · rcases od with _ | d
      · have hp2 := parseTagE_none_parent hp
        subst hp2
        have ih := bindFields_parent_eq cfg rest
        simp [bindFields, hp, ih]
      · obtain ⟨hg, hp2⟩ := parseTagE_some hp
        have h1 := bindOne_parent_eq (cfg.withParent p2) fm d v
        have hr1 : (bindOne (cfg.withParent p2) fm d v).parent = cfg.parent := by
          rw [h1]
          by_cases hsl : (v.isStructKind || v.isPtrKind) = true
          · rw [if_pos hsl, withParent_squash, withParent_parent, hp2,
              cared_of_structlike hsl]
            exact popRevert_push_eq fm cfg.squash d.squash cfg.parent d.origin
          · rw [if_neg hsl, withParent_parent, hp2,
              cared_of_scalar (by revert hsl; cases (v.isStructKind || v.isPtrKind) <;> simp)]
            simp
        rcases ho : (bindOne (cfg.withParent p2) fm d v).out with _ | e | q
        · have ih := bindFields_parent_eq cfg rest
          simp [bindFields, hp, ho, hr1, ih]
        · simp [bindFields, hp, ho, hr1]
        · simp [bindFields, hp, ho, hr1]
end

/-- After a successful `parseTag`, entering the field with the pushed
parent and leaving through the deferred revert restores the parent path
of the surrounding loop. -/
theorem bindOne_parent_restore {cfg : FlagConfig} {fm : FieldMeta} {d : TagData} {v : GoVal}
    {p2 : List GoStr} (hp : parseTagE (isAnonymousCaredField fm v) fm cfg = .ok (some d, p2)) :
    (bindOne (cfg.withParent p2) fm d v).parent = cfg.parent := by
  obtain ⟨hg, hp2⟩ := parseTagE_some hp
  rw [bindOne_parent_eq]
  by_cases hsl : (v.isStructKind || v.isPtrKind) = true
  · rw [if_pos hsl, withParent_squash, withParent_parent, hp2, cared_of_structlike hsl]
    exact popRevert_push_eq fm cfg.squash d.squash cfg.parent d.origin
  · rw [if_neg hsl, withParent_parent, hp2,
      cared_of_scalar (by revert hsl; cases (v.isStructKind || v.isPtrKind) <;> simp)]
    simp

/-! ## Decomposing a bind walk over concatenated field lists -/

theorem bindFields_fappend (cfg : FlagConfig) (fs1 fs2 : GoFields) :
    bindFields cfg (fs1.fappend fs2) =
      if (bindFields cfg fs1).out = .ok
      then ⟨(bindFields cfg fs1).regs ++ (bindFields cfg fs2).regs,
            (bindFields cfg fs2).parent, (bindFields cfg fs2).out⟩
      else bindFields cfg fs1 := by
  cases fs1 with
  | fnil => simp [GoFields.fappend, bindFields]
  | fcons fm v rest =>
    rcases hp : parseTagE (isAnonymousCaredField fm v) fm cfg with q | ⟨od, p2⟩
    · simp [GoFields.fappend, bindFields, hp]
    · rcases od with _ | d
      · have hp2 := parseTagE_none_parent hp
        subst hp2
        have ih := bindFields_fappend cfg rest fs2
        simp [GoFields.fappend, bindFields, hp, ih]
      · have hr1 := bindOne_parent_restore hp
        rcases ho : (bindOne (cfg.withParent p2) fm d v).out with _ | e | q
        · have ih := bindFields_fappend cfg rest fs2
          by_cases h2 : (bindFields cfg rest).out = .ok <;>
            simp [GoFields.fappend, bindFields, hp, ho, hr1, ih, h2, List.append_assoc]
        · simp [GoFields.fappend, bindFields, hp, ho]
        · simp [GoFields.fappend, bindFields, hp, ho]

/-! ## Bind/read correspondence under global squash -/

theorem parseTagE_squash_true {c : Bool} {fm : FieldMeta} {cfg : FlagConfig}
    (h : cfg.squash = true) :
    parseTagE c fm cfg = (getTagE fm cfg).map (fun od => (od, cfg.parent)) := by
  unfold parseTagE
  rcases hg : getTagE fm cfg with q | od
  · rfl
  · rcases od with _ | d
    · rfl
    · simp [Except.map, h]

mutual
theorem corrOne (cfg : FlagConfig) (fm : FieldMeta) (d : TagData) (v : GoVal)
    (h : cfg.squash = true) :
    (bindOne cfg fm d v).regs.map regKey = (readOne cfg fm d v).reads ∧
    (bindOne cfg fm d v).parent = (readOne cfg fm d v).parent ∧
    (bindOne cfg fm d v).out = (readOne cfg fm d v).out := by
  cases v with
  | vStruct fs =>
    have ih := corrFields cfg fs h
    by_cases he : fm.exported = false <;>
      simp [bindOne, readOne, he, ih.1, ih.2.1, ih.2.2]
  | vPtr po =>
    rcases po with _ | pv
    · simp [bindOne, readOne]
    · cases pv with
      | vStruct fs =>
        have ih := corrFields cfg fs h
        by_cases he : fm.exported = false <;>
          simp [bindOne, readOne, he, ih.1, ih.2.1, ih.2.2]
      | _ => simp [bindOne, readOne]
  | _ =>
    by_cases he : fm.exported = true <;>
      simp [bindOne, readOne, bindScalar, readScalar, regKey, he]

theorem corrFields (cfg : FlagConfig) (fs : GoFields) (h : cfg.squash = true) :
    (bindFields cfg fs).regs.map regKey = (readFields cfg fs).reads ∧
    (bindFields cfg fs).parent = (readFields cfg fs).parent ∧
    (bindFields cfg fs).out = (readFields cfg fs).out := by
  cases fs with
  | fnil => exact ⟨rfl, rfl, rfl⟩
  | fcons fm v rest =>
    have hpt := @parseTagE_squash_true (isAnonymousCaredField fm v) fm cfg h
    rcases hg : getTagE fm cfg with q | od
    · simp [bindFields, readFields, hpt, hg, Except.map]
    · rcases od with _ | d
      · have ih := corrFields cfg rest h
        simp [bindFields, readFields, hpt, hg, Except.map, ih.1, ih.2.1, ih.2.2]
      · have ihOne := corrOne cfg fm d v h
        have ihR := corrFields (cfg.withParent (readOne cfg fm d v).parent) rest
          (by simpa using h)
        rcases ho : (readOne cfg fm d v).out with _ | e | q <;>
          simp [bindFields, readFields, hpt, hg, Except.map, ihOne.1, ihOne.2.1, ihOne.2.2,
            ho, ihR.1, ihR.2.1, ihR.2.2]
end

/-! ## Token-level lemmas -/

theorem goJoin_cons {sep : Char} {t : GoStr} {toks : List GoStr} (h : toks ≠ []) :
    goJoin sep (t :: toks) = t ++ sep :: goJoin sep toks := by
  cases toks with
  | nil => exact absurd rfl h
  | cons x xs => rfl

theorem goSplit_join_toks {sep : Char} (toks : List GoStr) (hne : toks ≠ [])
    (h : ∀ t ∈ toks, sep ∉ t) :
    goSplit sep (goJoin sep toks) = toks := by
  cases toks with
  | nil => exact absurd rfl hne
  | cons t rest =>
    cases rest with
    | nil => simpa [goJoin] using goSplit_not_mem (h t (by simp))
    | cons x xs =>
      rw [goJoin_cons (by simp), goSplit_append (h t (by simp))]
      rw [goSplit_join_toks (x :: xs) (by simp) (fun u hu => h u (by simp [hu]))]

theorem headNonWS_goJoin_cons {sep : Char} {t : GoStr} {toks : List GoStr} (h : t ≠ []) :
    headNonWS (goJoin sep (t :: toks)) = headNonWS t := by
  cases toks with
  | nil => rfl
  | cons x xs => rw [goJoin_cons (by simp), headNonWS_append h]

theorem lastNonWS_goJoin {sep : Char} (hsep : sep.isWhitespace = false) (toks : List GoStr)
    (h : ∀ u, toks.getLast? = some u → lastNonWS u = true) :
    lastNonWS (goJoin sep toks) = true := by
  cases toks with
  | nil => rfl
  | cons t rest =>
    cases rest with
    | nil => exact h t rfl
    | cons x xs =>
      rw [goJoin_cons (by simp), lastNonWS_append (by simp)]
      rcases hj : goJoin sep (x :: xs) with _ | ⟨c, cs⟩
      · simp [lastNonWS, headNonWS, hsep]
      · rw [lastNonWS_cons (by simp), ← hj]
        exact lastNonWS_goJoin hsep (x :: xs) (fun u hu => h u (by simpa using hu))

theorem tokUpd_labeled {st : Settings} {lbl w : GoStr} (h1 : ':' ∉ lbl)
    (h2 : goTrim lbl = lbl) : tokUpd st (lbl ++ ':' :: w) = setPut st lbl w := by
  unfold tokUpd
  rw [goSplit_append h1]
  have hlen : 2 ≤ (lbl :: goSplit ':' w).length := by
    have := List.length_pos.mpr (goSplit_ne_nil ':' w)
    simp only [List.length_cons]
    omega
  simp only [List.headI, List.tail]
  rw [if_pos hlen, goJoin_goSplit, h2]

theorem labeled_ne_nil {lbl w : GoStr} : lbl ++ ':' :: w ≠ [] := by simp

theorem labeled_not_esc {lbl w : GoStr} (h : '\\' ∉ w) :
    (lbl ++ ':' :: w).getLast? ≠ some '\\' := by
  rw [getLast?_append_right (by simp)]
  cases w with
  | nil => simp
  | cons c cs =>
    rw [show (':' :: c :: cs : GoStr) = [':'] ++ c :: cs from rfl,
      getLast?_append_right (by simp)]
    exact not_esc_of_not_mem h

theorem procToks_cons_simple {sep : Char} {st : Settings} {t : GoStr} {toks : List GoStr}
    (h1 : t ≠ []) (h2 : t.getLast? ≠ some '\\') :
    procToks sep st (t :: toks) = procToks sep (tokUpd st t) toks := by
  rw [show procToks sep st (t :: toks) = procCur sep st t toks from rfl]
  exact procCur_step h1 h2

/-! ## No-panic conditions for the token loop -/

theorem procCur_ok {sep : Char} (hsep : sep ≠ '\\') :
    ∀ (rest : List GoStr) (t : GoStr) (st : Settings), t ≠ [] →
      (∀ r ∈ rest, r ≠ []) →
      (∀ u, (t :: rest).getLast? = some u → u.getLast? ≠ some '\\') →
      ∃ st2, procCur sep st t rest = .ok st2
  | [], t, st, h1, _, h3 => by
    refine ⟨tokUpd st t, ?_⟩
    simp [procCur, h1, h3 t rfl]
  | r :: rs, t, st, h1, h2, h3 => by
    by_cases hesc : t.getLast? = some '\\'
    · rw [procCur_merge h1 hesc]
      refine procCur_ok hsep rs (t.dropLast ++ sep :: r) st (by simp) ?_ ?_
      · exact fun u hu => h2 u (by simp [hu])
      · intro u hu
        cases rs with
        | nil =>
          simp only [List.getLast?_singleton, Option.some.injEq] at hu
          subst hu
          rw [getLast?_append_right (by simp)]
          rcases hr : r with _ | ⟨c, cs⟩
          · simp only [List.getLast?_singleton, Option.some.injEq]
            intro hcontra
            exact hsep (Option.some.inj hcontra)
          · rw [show (sep :: c :: cs : GoStr) = [sep] ++ c :: cs from rfl,
              getLast?_append_right (by simp)]
            have := h3 r (by simp [hr])
            rw [hr] at this
            exact this
        | cons x xs =>
          rw [List.getLast?_cons_cons] at hu
          exact h3 u (by simpa using hu)
    · rw [show procCur sep st t (r :: rs) = procCur sep (tokUpd st t) r rs from by
        simp [procCur, h1, hesc]]
      refine procCur_ok hsep rs r (tokUpd st t) (h2 r (by simp)) ?_ ?_
      · exact fun u hu => h2 u (by simp [hu])
      · intro u hu
        exact h3 u (by rw [List.getLast?_cons_cons]; exact hu)

theorem lastTokSafe_spec {toks : List GoStr} (h : lastTokSafe toks = true) :
    ∀ u, toks.getLast? = some u → u.getLast? ≠ some '\\' := by
  intro u hu
  unfold lastTokSafe at h
  rw [hu] at h
  simpa using h

theorem procToks_ok {sep : Char} (hsep : sep ≠ '\\') (toks : List GoStr) (st : Settings)
    (h1 : ∀ t ∈ toks, t ≠ []) (h2 : lastTokSafe toks = true) :
    ∃ st2, procToks sep st toks = .ok st2 := by
  cases toks with
  | nil => exact ⟨st, rfl⟩
  | cons t rest =>
    rw [show procToks sep st (t :: rest) = procCur sep st t rest from rfl]
    exact procCur_ok hsep rest t st (h1 t (by simp)) (fun r hr => h1 r (by simp [hr]))
      (lastTokSafe_spec h2)

theorem exists_ok_ite {ε α : Type} (c : Prop) [Decidable c] (y : α) :
    ∃ r : Option α, (if c then (Except.ok none : Except ε (Option α)) else .ok (some y)) = .ok r := by
  split
  · exact ⟨none, rfl⟩
  · exact ⟨some y, rfl⟩

/-! ## Claim theorems -/

/-- C1, counterexample: a tag with a trailing separator — one of the
very shapes the claim enumerates — does not degrade silently: the token
loop indexes the last byte of the empty final token and panics with an
index-out-of-range error. -/
theorem claim_C1_counterexample :
    getTagE trailSepField defaultFlagConfig = .error .indexOutOfRange := by decide

/-- C1, amended: provided the separator is not the escape marker, every
token after the first is non-empty, and the final token does not end in
the escape marker, tag parsing terminates normally and returns a
settings record or nil; in particular malformed label text and
unparseable default values degrade silently inside those bounds. -/
theorem claim_C1_no_panic (fm : FieldMeta) (cfg : FlagConfig)
    (hsep : cfg.tagLabelSep ≠ '\\')
    (h1 : ((goSplit cfg.tagLabelSep (goTrim (fm.tagOf.getD []))).tail).all
      (fun t => !t.isEmpty) = true)
    (h2 : lastTokSafe ((goSplit cfg.tagLabelSep (goTrim (fm.tagOf.getD []))).tail) = true) :
    ∃ r, getTagE fm cfg = .ok r := by
  by_cases hig : cfg.ignoreUntaggedFields = true ∧ fm.tagOf = none
  · exact ⟨none, by simp [getTagE, hig]⟩
  · have h1p : ∀ t ∈ (goSplit cfg.tagLabelSep (goTrim (fm.tagOf.getD []))).tail, t ≠ [] := by
      intro t ht
      simpa using List.all_eq_true.mp h1 t ht
    obtain ⟨st2, heq⟩ := procToks_ok hsep
      ((goSplit cfg.tagLabelSep (goTrim (fm.tagOf.getD []))).tail)
      (setPut [] cfg.tagName
        (goTrim (goSplit cfg.tagLabelSep (goTrim (fm.tagOf.getD []))).headI))
      h1p h2
    simp only [getTagE, if_neg hig, heq]
    exact exists_ok_ite _ _

/-- C1, witness: the amended no-panic claim evaluated on a well-formed
three-token tag under the default configuration. -/
theorem claim_C1_no_panic_witness :
    defaultFlagConfig.tagLabelSep ≠ '\\' ∧
    ((goSplit defaultFlagConfig.tagLabelSep
        (goTrim (portField.tagOf.getD []))).tail).all (fun t => !t.isEmpty) = true ∧
    lastTokSafe ((goSplit defaultFlagConfig.tagLabelSep
        (goTrim (portField.tagOf.getD []))).tail) = true ∧
    ∃ r, getTagE portField defaultFlagConfig = .ok r :=
  ⟨by decide, by decide, by decide,
    claim_C1_no_panic portField defaultFlagConfig (by decide) (by decide) (by decide)⟩

/-- C2, counterexample: with global squash off, the bind walk registers
the embedded field under the dot-prefixed name `child.name`, while the
read walk — which resolves tags through plain `getTag` and never pushes
the parent path — reads the same field back under the unprefixed name
`name`, so the two walks do not resolve the same final flag name. -/
theorem claim_C2_counterexample :
    bindNames cfgNoSquash anonChild = [gs "child.name"] ∧
    readNames cfgNoSquash anonChild = [gs "name"] ∧
    bindNames cfgNoSquash anonChild ≠ readNames cfgNoSquash anonChild := by decide

/-- C2, amended: with the global squash flag on (the default), the bind
walk and the read walk resolve exactly the same (kind, flag name)
sequence for the processed fields of any target value, so every field is
read back under the name with which it was registered. -/
theorem claim_C2_same_names (cfg : FlagConfig) (v0 : GoVal) (h : cfg.squash = true) :
    (bindTop cfg v0).regs.map regKey = (readTop cfg v0).reads := by
  cases v0 with
  | vPtr po =>
    rcases po with _ | pv
    · rfl
    · cases pv with
      | vStruct fs => exact (corrFields cfg fs h).1
      | _ => rfl
  | _ => rfl

/-- C2, witness: the amended claim evaluated on the embedded-struct
example under the default (squash on) configuration. -/
theorem claim_C2_same_names_witness :
    defaultFlagConfig.squash = true ∧
    (bindTop defaultFlagConfig anonChild).regs.map regKey =
      (readTop defaultFlagConfig anonChild).reads :=
  ⟨rfl, claim_C2_same_names defaultFlagConfig anonChild rfl⟩

/-- C3: the `flag.go` bind walk does not skip an unexported field — it
dispatches it and panics inside `reflect` at `Addr().Interface()`, and
the read walk panics the same way at `Set` — whereas the second
revision's `parseTag` (the spec's behaviour) skips the field before
looking at its tag. -/
theorem claim_C3_unexported :
    bindTop defaultFlagConfig unexpStruct = ⟨[], [], .panic .unexportedField⟩ ∧
    readTop defaultFlagConfig unexpStruct = ⟨[], [], .panic .unexportedField⟩ ∧
    parseTagV2 false unexpField defaultFlagConfig = .ok (none, []) := by decide

/-- C4, counterexample: with global squash off, a non-anonymous struct
field `Child` (tag `child`, no squash label) contributes no prefix
segment in `flag.go` — `isAnonymousCaredField` requires the field to be
anonymous — so its child is registered as `name`, not `child.name`. -/
theorem claim_C4_counterexample :
    bindNames cfgNoSquash namedChild = [gs "name", gs "addr"] ∧
    bindNames cfgNoSquash namedChild ≠ [gs "child.name", gs "addr"] := by decide

/-- C4, amended: with global squash off, a struct-typed or
pointer-to-struct field prefixes its children with its resolved name
joined by "." exactly when it is embedded (anonymous) and does not carry
the squash label; a squash-labelled field and any non-anonymous field
contribute no prefix segment. -/
theorem claim_C4_squash_prefix (a sq : Bool) :
    bindNames cfgNoSquash (sqChild a sq) =
      (if a = true ∧ sq = false then [gs "child.name", gs "addr"]
       else [gs "name", gs "addr"]) ∧
    bindNames cfgNoSquash (sqChildPtr a sq) =
      (if a = true ∧ sq = false then [gs "child.name", gs "addr"]
       else [gs "name", gs "addr"]) := by
  cases a <;> cases sq <;> decide

/-- C5: the parent path of the configuration is restored to its initial
value by every top-level bind walk, whatever the outcome (success,
error, or panic): each push on descending into a namespace-contributing
field is matched by exactly one deferred pop.  Started from the empty
path, the walk therefore returns with path length 0. -/
theorem claim_C5_parent_balanced (cfg : FlagConfig) (v0 : GoVal) :
    (bindTop cfg v0).parent = cfg.parent := by
  cases v0 with
  | vPtr po =>
    rcases po with _ | pv
    · rfl
    · cases pv with
      | vStruct fs => exact bindFields_parent_eq cfg fs
      | _ => rfl
  | _ => rfl

/-- C9, counterexample: the read walk does not reject a non-pointer
target with an invalid-argument error — `readFlags` performs no
validation at all, and `reflect.Value.Elem` panics. -/
theorem claim_C9_counterexample :
    (readTop defaultFlagConfig .vString).out = .panic .elemOnNonPointer ∧
    (readTop defaultFlagConfig .vString).out ≠ .err .notPointer := by decide

/-- C9, amended: only the bind walk validates its top-level target, and
only against being a non-pointer: a non-pointer value makes `bindFlags`
return the invalid-argument error before processing any field, while
`readFlags` panics in reflect; a pointer whose pointee is missing or not
a struct passes the bind check and both walks panic when the field loop
starts. -/
theorem claim_C9_top_validation (cfg : FlagConfig) (v0 : GoVal) :
    (v0.isPtrKind = false →
      bindTop cfg v0 = ⟨[], cfg.parent, .err .notPointer⟩ ∧
      readTop cfg v0 = ⟨[], cfg.parent, .panic .elemOnNonPointer⟩) ∧
    (∀ po, v0 = .vPtr po → (∀ q, po = some q → q.isStructKind = false) →
      bindTop cfg v0 = ⟨[], cfg.parent, .panic .numFieldOnNonStruct⟩ ∧
      readTop cfg v0 = ⟨[], cfg.parent, .panic .numFieldOnNonStruct⟩) := by
  constructor
  · intro h
    cases v0 <;> simp_all [bindTop, readTop, GoVal.isPtrKind]
  · intro po hv hq
    subst hv
    rcases po with _ | q
    · exact ⟨rfl, rfl⟩
    · cases hqs : q with
      | vStruct fs => exact absurd (hq q rfl) (by simp [hqs, GoVal.isStructKind])
      | _ => exact ⟨rfl, rfl⟩

/-- C9, witness: the amended claim evaluated at a non-pointer int target
and at a pointer-to-int target. -/
theorem claim_C9_top_validation_witness :
    (GoVal.vInt.isPtrKind = false ∧
      bindTop defaultFlagConfig .vInt = ⟨[], [], .err .notPointer⟩ ∧
      readTop defaultFlagConfig .vInt = ⟨[], [], .panic .elemOnNonPointer⟩) ∧
    (bindTop defaultFlagConfig (.vPtr (some .vInt)) =
        ⟨[], [], .panic .numFieldOnNonStruct⟩ ∧
      readTop defaultFlagConfig (.vPtr (some .vInt)) =
        ⟨[], [], .panic .numFieldOnNonStruct⟩) :=
  ⟨⟨by decide, (claim_C9_top_validation defaultFlagConfig .vInt).1 (by decide)⟩,
    (claim_C9_top_validation defaultFlagConfig (.vPtr (some .vInt))).2 (some .vInt) rfl
      (by intro q hq; cases hq; decide)⟩

/-- C10: a walk over fields `fs1 ++ (P : nil pointer) ++ fs2`, where
`fs1` binds successfully and `P`'s tag resolves to settings, registers
exactly the flags of `fs1` (kept, not rolled back), fails with the
nil-pointer error naming `P`, processes nothing of `fs2`, and leaves the
parent path restored. -/
theorem claim_C10_nil_pointer (cfg : FlagConfig) (fs1 fs2 : GoFields) (fm : FieldMeta)
    (d : TagData) (h1 : (bindFields cfg fs1).out = .ok)
    (h2 : getTagE fm cfg = .ok (some d)) :
    bindFields cfg (fs1.fappend (.fcons fm (.vPtr none) fs2)) =
      ⟨(bindFields cfg fs1).regs, cfg.parent, .err (.nilValue fm.fname)⟩ := by
  rw [bindFields_fappend, if_pos h1]
  have hp : parseTagE (isAnonymousCaredField fm (.vPtr none)) fm cfg =
      .ok (some d,
        if cfg.squash = false ∧ d.squash = false ∧
            isAnonymousCaredField fm (.vPtr none) = true
        then cfg.parent ++ [d.origin] else cfg.parent) :=
    parseTagE_of_getTag_some h2
  have hr := bindOne_parent_restore hp
  have hb : bindOne (cfg.withParent
        (if cfg.squash = false ∧ d.squash = false ∧
            isAnonymousCaredField fm (.vPtr none) = true
         then cfg.parent ++ [d.origin] else cfg.parent)) fm d (.vPtr none) =
      ⟨[], cfg.parent, .err (.nilValue fm.fname)⟩ := by
    rw [show (bindOne (cfg.withParent _) fm d (.vPtr none) : BindRes) =
      ⟨[], _, .err (.nilValue fm.fname)⟩ from rfl]
    rw [show (bindOne (cfg.withParent _) fm d (.vPtr none)).parent = _ from rfl] at hr
    exact congrArg (fun p => (⟨[], p, .err (.nilValue fm.fname)⟩ : BindRes)) hr
  have hbody : bindFields cfg (.fcons fm (.vPtr none) fs2) =
      ⟨[], cfg.parent, .err (.nilValue fm.fname)⟩ := by
    simp only [bindFields, hp, hb]
  rw [hbody]
  simp

/-- C10, witness: the nil-pointer scenario `A string; P *T nil; B
string` evaluated concretely — `a` is registered, the walk fails naming
`P`, and `b` is never reached. -/
theorem claim_C10_nil_pointer_witness :
    (bindFields defaultFlagConfig fsA).out = .ok ∧
    getTagE fmP defaultFlagConfig = .ok (some dP) ∧
    bindFields defaultFlagConfig (fsA.fappend (.fcons fmP (.vPtr none) fsB)) =
      ⟨(bindFields defaultFlagConfig fsA).regs, [], .err (.nilValue (gs "P"))⟩ :=
  ⟨by decide, by decide,
    claim_C10_nil_pointer defaultFlagConfig fsA fsB fmP dP (by decide) (by decide)⟩

/-- C7, counterexample: with name equal to the skip sentinel "-" — which
contains no separator, escape marker, or colon — the tag
`-,short:S,desc:D,default:V` yields no settings at all instead of a
record with name "-", so the claim's "the field is not skipped" fails. -/
theorem claim_C7_counterexample :
    getTagE skipAllField defaultFlagConfig = .ok none ∧
    getTagE skipAllField defaultFlagConfig ≠
      .ok (some ⟨gs "-", gs "-", gs "S", gs "D", gs "V", false⟩) := by decide

/-- C7, amended: for a tag `name,short:X,desc:D,default:V` whose pieces
contain no separator, escape marker, or colon, and where the name
additionally is non-empty, is not the skip sentinel, and carries no
leading or trailing whitespace (and V no trailing whitespace), parsing
under the default configuration yields exactly the settings record with
flag name `name`, short alias X, description D, default V, squash off —
and the field is not skipped. -/
theorem claim_C7_basic_tag (nm name X D V : GoStr) (ex an : Bool)
    (hn1 : ',' ∉ name) (hn2 : '\\' ∉ name) (hn3 : ':' ∉ name)
    (hx1 : ',' ∉ X) (hx2 : '\\' ∉ X) (hx3 : ':' ∉ X)
    (hd1 : ',' ∉ D) (hd2 : '\\' ∉ D) (hd3 : ':' ∉ D)
    (hv1 : ',' ∉ V) (hv2 : '\\' ∉ V) (hv3 : ':' ∉ V)
    (hne : name ≠ []) (hskip : name ≠ gs "-")
    (hh : headNonWS name = true) (hl : lastNonWS name = true)
    (hlv : lastNonWS V = true) :
    getTagE ⟨nm, ex, an, some
        (name ++ ',' :: (gs "short" ++ ':' :: X) ++ ',' :: (gs "desc" ++ ':' :: D) ++
          ',' :: (gs "default" ++ ':' :: V))⟩ defaultFlagConfig =
    .ok (some ⟨name, name, X, D, V, false⟩) := by
  have htag : name ++ ',' :: (gs "short" ++ ':' :: X) ++ ',' :: (gs "desc" ++ ':' :: D) ++
        ',' :: (gs "default" ++ ':' :: V) =
      goJoin ',' [name, gs "short" ++ ':' :: X, gs "desc" ++ ':' :: D,
        gs "default" ++ ':' :: V] := by
    simp [goJoin, List.append_assoc]
  have hmem : ∀ t ∈ [name, gs "short" ++ ':' :: X, gs "desc" ++ ':' :: D,
      gs "default" ++ ':' :: V], ',' ∉ t := by
    intro t ht
    simp only [List.mem_cons, List.not_mem_nil, or_false] at ht
    rcases ht with rfl | rfl | rfl | rfl
    · exact hn1
    · simp only [List.mem_append, List.mem_cons, not_or]
      exact ⟨by decide, by decide, hx1⟩
    · simp only [List.mem_append, List.mem_cons, not_or]
      exact ⟨by decide, by decide, hd1⟩
    · simp only [List.mem_append, List.mem_cons, not_or]
      exact ⟨by decide, by decide, hv1⟩
  have hsplit := goSplit_join_toks
    [name, gs "short" ++ ':' :: X, gs "desc" ++ ':' :: D, gs "default" ++ ':' :: V]
    (by simp) hmem
  have hhead2 : headNonWS (goJoin ','
      [name, gs "short" ++ ':' :: X, gs "desc" ++ ':' :: D,
        gs "default" ++ ':' :: V]) = true := by
    rw [headNonWS_goJoin_cons hne]
    exact hh
  have hlast2 : lastNonWS (goJoin ','
      [name, gs "short" ++ ':' :: X, gs "desc" ++ ':' :: D,
        gs "default" ++ ':' :: V]) = true := by
    apply lastNonWS_goJoin (by decide)
    intro u hu
    simp only [List.getLast?_cons_cons, List.getLast?_singleton, Option.some.injEq] at hu
    subst hu
    rw [lastNonWS_append (by simp)]
    cases V with
    | nil => decide
    | cons c cs =>
      rw [lastNonWS_cons (by simp)]
      exact hlv
  have htrim := goTrim_eq_self hhead2 hlast2
  have hproc : procToks ',' (setPut [] (gs "flag") name)
      [gs "short" ++ ':' :: X, gs "desc" ++ ':' :: D, gs "default" ++ ':' :: V] =
      .ok (setPut (setPut (setPut (setPut [] (gs "flag") name)
        (gs "short") X) (gs "desc") D) (gs "default") V) := by
    rw [procToks_cons_simple labeled_ne_nil (labeled_not_esc hx2),
      tokUpd_labeled (by decide) (by decide),
      procToks_cons_simple labeled_ne_nil (labeled_not_esc hd2),
      tokUpd_labeled (by decide) (by decide),
      procToks_cons_simple labeled_ne_nil (labeled_not_esc hv2),
      tokUpd_labeled (by decide) (by decide)]
    rfl
  simp only [getTagE, Option.getD_some]
  rw [if_neg (by simp [defaultFlagConfig])]
  rw [show defaultFlagConfig.tagLabelSep = ',' from rfl,
    show (defaultFlagConfig.tagName : GoStr) = gs "flag" from rfl]
  rw [htag, htrim, hsplit]
  simp only [List.headI, List.tail]
  rw [goTrim_eq_self hh hl, hproc]
  simp only [setGet_put_ne (by decide : ((gs "default" : GoStr) == gs "flag") = false),
    setGet_put_ne (by decide : ((gs "desc" : GoStr) == gs "flag") = false),
    setGet_put_ne (by decide : ((gs "short" : GoStr) == gs "flag") = false),
    setGet_put_eq,
    setGet_put_ne (by decide : ((gs "default" : GoStr) == gs "short") = false),
    setGet_put_ne (by decide : ((gs "desc" : GoStr) == gs "short") = false),
    setGet_put_ne (by decide : ((gs "default" : GoStr) == gs "desc") = false)]
  rw [if_neg hne, if_neg hskip]
  rw [if_neg (by simp [defaultFlagConfig])]
  simp only [setHas_put,
    (by decide : ((gs "flag" : GoStr) == gs "squash") = false),
    (by decide : ((gs "short" : GoStr) == gs "squash") = false),
    (by decide : ((gs "desc" : GoStr) == gs "squash") = false),
    (by decide : ((gs "default" : GoStr) == gs "squash") = false),
    Bool.false_or, Bool.or_false]
  rfl

/-- C7, witness: the amended claim instantiated on the repository's own
example tag `port,short:P,desc:p,default:20001`. -/
theorem claim_C7_basic_tag_witness :
    getTagE ⟨gs "Port", true, false, some
        (gs "port" ++ ',' :: (gs "short" ++ ':' :: gs "P") ++
          ',' :: (gs "desc" ++ ':' :: gs "p") ++
          ',' :: (gs "default" ++ ':' :: gs "20001"))⟩ defaultFlagConfig =
    .ok (some ⟨gs "port", gs "port", gs "P", gs "p", gs "20001", false⟩) :=
  claim_C7_basic_tag (gs "Port") (gs "port") (gs "P") (gs "p") (gs "20001") true false
    (by decide) (by decide) (by decide) (by decide) (by decide) (by decide)
    (by decide) (by decide) (by decide) (by decide) (by decide) (by decide)
    (by decide) (by decide) (by decide) (by decide) (by decide)

/-! ## C8 machinery: lists of recognised labels cannot unset the skip -/

theorem render_ne_nil (l : C8Label) : l.render ≠ [] := by
  cases l with
  | lshort v => exact labeled_ne_nil
  | ldesc v => exact labeled_ne_nil
  | ldefault v => exact labeled_ne_nil
  | lsquash => decide

theorem render_not_esc {l : C8Label} (h : l.wf) : l.render.getLast? ≠ some '\\' := by
  cases l with
  | lshort v => exact labeled_not_esc h.2.1
  | ldesc v => exact labeled_not_esc h.2.1
  | ldefault v => exact labeled_not_esc h.2.1
  | lsquash => decide

theorem render_no_comma {l : C8Label} (h : l.wf) : ',' ∉ l.render := by
  cases l with
  | lshort v =>
    simp only [C8Label.render, List.mem_append, List.mem_cons, not_or]
    exact ⟨by decide, by decide, h.1⟩
  | ldesc v =>
    simp only [C8Label.render, List.mem_append, List.mem_cons, not_or]
    exact ⟨by decide, by decide, h.1⟩
  | ldefault v =>
    simp only [C8Label.render, List.mem_append, List.mem_cons, not_or]
    exact ⟨by decide, by decide, h.1⟩
  | lsquash => decide

theorem render_lastNonWS {l : C8Label} (h : l.wf) : lastNonWS l.render = true := by
  cases l with
  | lshort v =>
    rw [show C8Label.render (.lshort v) = gs "short" ++ ':' :: v from rfl,
      lastNonWS_append (by simp)]
    cases v with
    | nil => decide
    | cons c cs =>
      rw [lastNonWS_cons (by simp)]
      exact h.2.2
  | ldesc v =>
    rw [show C8Label.render (.ldesc v) = gs "desc" ++ ':' :: v from rfl,
      lastNonWS_append (by simp)]
    cases v with
    | nil => decide
    | cons c cs =>
      rw [lastNonWS_cons (by simp)]
      exact h.2.2
  | ldefault v =>
    rw [show C8Label.render (.ldefault v) = gs "default" ++ ':' :: v from rfl,
      lastNonWS_append (by simp)]
    cases v with
    | nil => decide
    | cons c cs =>
      rw [lastNonWS_cons (by simp)]
      exact h.2.2
  | lsquash => decide

theorem tokUpd_squash (st : Settings) :
    tokUpd st (gs "squash") = setPut st (gs "squash") (gs "squash") := rfl

theorem tokUpd_flag_preserved {st : Settings} {l : C8Label} (h : l.wf) :
    setGet (tokUpd st l.render) (gs "flag") = setGet st (gs "flag") := by
  cases l with
  | lshort v =>
    rw [show C8Label.render (.lshort v) = gs "short" ++ ':' :: v from rfl,
      tokUpd_labeled (by decide) (by decide), setGet_put_ne (by decide)]
  | ldesc v =>
    rw [show C8Label.render (.ldesc v) = gs "desc" ++ ':' :: v from rfl,
      tokUpd_labeled (by decide) (by decide), setGet_put_ne (by decide)]
  | ldefault v =>
    rw [show C8Label.render (.ldefault v) = gs "default" ++ ':' :: v from rfl,
      tokUpd_labeled (by decide) (by decide), setGet_put_ne (by decide)]
  | lsquash =>
    rw [show C8Label.render .lsquash = gs "squash" from rfl,
      tokUpd_squash, setGet_put_ne (by decide)]

theorem procToks_skip_labels : ∀ (ls : List C8Label) (st : Settings), (∀ l ∈ ls, l.wf) →
    ∃ st2, procToks ',' st (ls.map C8Label.render) = .ok st2 ∧
      setGet st2 (gs "flag") = setGet st (gs "flag")
  | [], st, _ => ⟨st, rfl, rfl⟩
  | l :: ls, st, h => by
    have hw : l.wf := h l (by simp)
    obtain ⟨st2, heq, hflag⟩ :=
      procToks_skip_labels ls (tokUpd st l.render) (fun u hu => h u (by simp [hu]))
    refine ⟨st2, ?_, by rw [hflag, tokUpd_flag_preserved hw]⟩
    rw [List.map_cons, procToks_cons_simple (render_ne_nil l) (render_not_esc hw)]
    exact heq

theorem append_flat_join (t : GoStr) : ∀ ls : List C8Label,
    t ++ (ls.map (fun l => ',' :: l.render)).flatten = goJoin ',' (t :: ls.map C8Label.render)
  | [] => by simp [goJoin]
  | l :: ls => by
    rw [List.map_cons, List.flatten_cons, List.map_cons,
      goJoin_cons (by simp), ← append_flat_join l.render ls]
    simp

theorem skipTag_eq_join (ls : List C8Label) :
    skipTag ls = goJoin ',' (gs "-" :: ls.map C8Label.render) := by
  rw [← append_flat_join (gs "-") ls]
  rfl

theorem getLast?_map_wf : ∀ (ls : List C8Label), (∀ l ∈ ls, l.wf) →
    ∀ u, (ls.map C8Label.render).getLast? = some u → lastNonWS u = true
  | [], _, u, hu => by simp at hu
  | [l], h, u, hu => by
    simp only [List.map_cons, List.map_nil, List.getLast?_singleton,
      Option.some.injEq] at hu
    subst hu
    exact render_lastNonWS (h l (by simp))
  | l :: l2 :: ls, h, u, hu => by
    rw [List.map_cons, List.map_cons, List.getLast?_cons_cons, ← List.map_cons] at hu
    exact getLast?_map_wf (l2 :: ls) (fun x hx => h x (by simp [List.mem_cons.mp hx])) u hu

/-- C8: a tag whose first token is the skip sentinel "-" always yields
no settings — whatever combination of the labels `short:…`, `desc:…`,
`default:…` and `squash` follows it (payloads free of separator and
escape marker and without trailing whitespace), the recognised label
keys can never overwrite the stored flag name, so the field is skipped
with no flag registered and no value written. -/
theorem claim_C8_skip_sentinel (nm : GoStr) (ex an : Bool) (ls : List C8Label)
    (hwf : ∀ l ∈ ls, l.wf) :
    getTagE ⟨nm, ex, an, some (skipTag ls)⟩ defaultFlagConfig = .ok none := by
  have hjoin := skipTag_eq_join ls
  have hmem : ∀ t ∈ gs "-" :: ls.map C8Label.render, ',' ∉ t := by
    intro t ht
    rcases List.mem_cons.mp ht with rfl | hm
    · decide
    · obtain ⟨l, hl, rfl⟩ := List.mem_map.mp hm
      exact render_no_comma (hwf l hl)
  have hsplit := goSplit_join_toks (gs "-" :: ls.map C8Label.render) (by simp) hmem
  have hhead2 : headNonWS (goJoin ',' (gs "-" :: ls.map C8Label.render)) = true := by
    rw [headNonWS_goJoin_cons (by decide)]
    decide
  have hlast2 : lastNonWS (goJoin ',' (gs "-" :: ls.map C8Label.render)) = true := by
    apply lastNonWS_goJoin (by decide)
    intro u hu
    cases hls : ls.map C8Label.render with
    | nil =>
      rw [hls] at hu
      simp only [List.getLast?_singleton, Option.some.injEq] at hu
      subst hu
      decide
    | cons x xs =>
      rw [hls, List.getLast?_cons_cons] at hu
      exact getLast?_map_wf ls hwf u (by rw [hls]; exact hu)
  have htrim := goTrim_eq_self hhead2 hlast2
  obtain ⟨st2, hproc, hflag⟩ :=
    procToks_skip_labels ls (setPut [] (gs "flag") (gs "-")) hwf
  simp only [getTagE, Option.getD_some]
  rw [if_neg (by simp [defaultFlagConfig])]
  rw [show defaultFlagConfig.tagLabelSep = ',' from rfl,
    show (defaultFlagConfig.tagName : GoStr) = gs "flag" from rfl]
  rw [hjoin, htrim, hsplit]
  simp only [List.headI, List.tail]
  rw [show goTrim (gs "-") = gs "-" from by decide, hproc]
  have hn : setGet st2 (gs "flag") = gs "-" := by rw [hflag, setGet_put_eq]
  simp only [hn]
  rw [if_neg (by decide : ¬(gs "-" : GoStr) = [])]
  rw [if_pos rfl]

/-- C8, witness: the skip sentinel followed by all four recognised
labels still yields no settings. -/
theorem claim_C8_skip_sentinel_witness :
    (∀ l ∈ [C8Label.lshort (gs "S"), C8Label.ldesc (gs "D"),
      C8Label.ldefault (gs "V"), C8Label.lsquash], l.wf) ∧
    getTagE ⟨gs "Skip", true, false, some (skipTag
        [C8Label.lshort (gs "S"), C8Label.ldesc (gs "D"),
          C8Label.ldefault (gs "V"), C8Label.lsquash])⟩ defaultFlagConfig = .ok none :=
  ⟨by decide, claim_C8_skip_sentinel (gs "Skip") true false
    [C8Label.lshort (gs "S"), C8Label.ldesc (gs "D"),
      C8Label.ldefault (gs "V"), C8Label.lsquash] (by decide)⟩

/-- C6: in the tag `debug,default:true,desc:(d1)\,(d2)` — the claim's
example with the description generalised to any escape-free,
separator-free pieces d1 and d2 — the token ending in the escape marker
is rejoined with the following token using the separator literal, so the
parsed description is `d1 ++ "," ++ d2` (the literal separator survives),
the consumed token adds no extra settings (no short alias, no squash),
and name and default parse as usual. -/
theorem claim_C6_escaped_sep (nm : GoStr) (ex an : Bool) (d1 d2 : GoStr)
    (h11 : ',' ∉ d1) (h12 : '\\' ∉ d1) (h21 : ',' ∉ d2) (h22 : '\\' ∉ d2)
    (h23 : lastNonWS d2 = true) :
    getTagE ⟨nm, ex, an,
      some (gs "debug,default:true,desc:" ++ d1 ++ '\\' :: ',' :: d2)⟩ defaultFlagConfig =
    .ok (some ⟨gs "debug", gs "debug", [], d1 ++ ',' :: d2, gs "true", false⟩) := by
  have hlit : (gs "debug,default:true,desc:" : GoStr) =
      gs "debug" ++ ',' :: (gs "default:true" ++ ',' :: gs "desc:") := by decide
  have htag : gs "debug,default:true,desc:" ++ d1 ++ '\\' :: ',' :: d2 =
      goJoin ',' [gs "debug", gs "default:true", gs "desc:" ++ d1 ++ ['\\'], d2] := by
    rw [hlit]
    simp [goJoin, List.append_assoc]
  have hmem : ∀ t ∈ [gs "debug", gs "default:true", gs "desc:" ++ d1 ++ ['\\'], d2],
      ',' ∉ t := by
    intro t ht
    simp only [List.mem_cons, List.not_mem_nil, or_false] at ht
    rcases ht with rfl | rfl | rfl | rfl
    · decide
    · decide
    · intro hc
      rcases List.mem_append.mp hc with hc1 | hc2
      · rcases List.mem_append.mp hc1 with hc3 | hc4
        · exact absurd hc3 (by decide)
        · exact h11 hc4
      · simp only [List.mem_cons, List.not_mem_nil, or_false] at hc2
        exact absurd hc2 (by decide)
    · exact h21
  have hsplit := goSplit_join_toks
    [gs "debug", gs "default:true", gs "desc:" ++ d1 ++ ['\\'], d2] (by simp) hmem
  have hhead2 : headNonWS (goJoin ','
      [gs "debug", gs "default:true", gs "desc:" ++ d1 ++ ['\\'], d2]) = true := by
    rw [headNonWS_goJoin_cons (by decide)]
    decide
  have hlast2 : lastNonWS (goJoin ','
      [gs "debug", gs "default:true", gs "desc:" ++ d1 ++ ['\\'], d2]) = true := by
    apply lastNonWS_goJoin (by decide)
    intro u hu
    simp only [List.getLast?_cons_cons, List.getLast?_singleton, Option.some.injEq] at hu
    subst hu
    exact h23
  have htrim := goTrim_eq_self hhead2 hlast2
  have hT3ne : (gs "desc:" ++ d1 ++ ['\\'] : GoStr) ≠ [] := by simp
  have hT3esc : (gs "desc:" ++ d1 ++ ['\\'] : GoStr).getLast? = some '\\' :=
    List.getLast?_concat _
  have hdrop : (gs "desc:" ++ d1 ++ ['\\'] : GoStr).dropLast = gs "desc:" ++ d1 :=
    List.dropLast_concat
  have hMne : ((gs "desc:" ++ d1) ++ ',' :: d2 : GoStr) ≠ [] := by simp
  have hMesc : ((gs "desc:" ++ d1) ++ ',' :: d2 : GoStr).getLast? ≠ some '\\' := by
    rw [getLast?_append_right (by simp)]
    cases d2 with
    | nil => decide
    | cons c cs =>
      rw [show (',' :: c :: cs : GoStr) = [','] ++ c :: cs from rfl,
        getLast?_append_right (by simp)]
      exact not_esc_of_not_mem h22
  have hM2 : ((gs "desc:" ++ d1) ++ ',' :: d2 : GoStr) =
      gs "desc" ++ ':' :: (d1 ++ ',' :: d2) := by
    rw [show (gs "desc:" : GoStr) = gs "desc" ++ [':'] from by decide]
    simp [List.append_assoc]
  have hproc : procToks ',' (setPut [] (gs "flag") (gs "debug"))
      [gs "default:true", gs "desc:" ++ d1 ++ ['\\'], d2] =
      .ok (setPut (setPut (setPut [] (gs "flag") (gs "debug"))
        (gs "default") (gs "true")) (gs "desc") (d1 ++ ',' :: d2)) := by
    rw [procToks_cons_simple (by decide) (by decide)]
    rw [show tokUpd (setPut [] (gs "flag") (gs "debug")) (gs "default:true") =
      setPut (setPut [] (gs "flag") (gs "debug")) (gs "default") (gs "true") from by decide]
    rw [show procToks ','
        (setPut (setPut [] (gs "flag") (gs "debug")) (gs "default") (gs "true"))
        ((gs "desc:" ++ d1 ++ ['\\']) :: [d2]) =
      procCur ',' (setPut (setPut [] (gs "flag") (gs "debug")) (gs "default") (gs "true"))
        (gs "desc:" ++ d1 ++ ['\\']) [d2] from rfl]
    rw [procCur_merge hT3ne hT3esc, hdrop]
    simp only [procCur]
    rw [if_neg hMne, if_neg hMesc, hM2, tokUpd_labeled (by decide) (by decide)]
  simp only [getTagE, Option.getD_some]
  rw [if_neg (by simp [defaultFlagConfig])]
  rw [show defaultFlagConfig.tagLabelSep = ',' from rfl,
    show (defaultFlagConfig.tagName : GoStr) = gs "flag" from rfl]
  rw [htag, htrim, hsplit]
  simp only [List.headI, List.tail]
  rw [show goTrim (gs "debug") = gs "debug" from by decide, hproc]
  simp only [setGet_put_ne (by decide : ((gs "desc" : GoStr) == gs "flag") = false),
    setGet_put_ne (by decide : ((gs "default" : GoStr) == gs "flag") = false),
    setGet_put_eq,
    setGet_put_ne (by decide : ((gs "desc" : GoStr) == gs "short") = false),
    setGet_put_ne (by decide : ((gs "default" : GoStr) == gs "short") = false),
    setGet_put_ne (by decide : ((gs "flag" : GoStr) == gs "short") = false),
    setGet_put_ne (by decide : ((gs "desc" : GoStr) == gs "default") = false)]
  rw [if_neg (by decide : ¬(gs "debug" : GoStr) = [])]
  rw [if_neg (by decide : ¬(gs "debug" : GoStr) = gs "-")]
  rw [if_neg (by simp [defaultFlagConfig])]
  simp only [setHas_put,
    (by decide : ((gs "flag" : GoStr) == gs "squash") = false),
    (by decide : ((gs "desc" : GoStr) == gs "squash") = false),
    (by decide : ((gs "default" : GoStr) == gs "squash") = false),
    Bool.false_or, Bool.or_false]
  rfl

/-- C6, witness: the claim's literal example — the tag
`debug,default:true,desc:enable\,disable` parses to the description
`enable,disable` containing the separator, with no extra settings. -/
theorem claim_C6_escaped_sep_witness :
    getTagE ⟨gs "F", true, false,
      some (gs "debug,default:true,desc:" ++ gs "enable" ++ '\\' :: ',' :: gs "disable")⟩
      defaultFlagConfig =
    .ok (some ⟨gs "debug", gs "debug", [], gs "enable" ++ ',' :: gs "disable",
      gs "true", false⟩) :=
  claim_C6_escaped_sep (gs "F") true false (gs "enable") (gs "disable")
    (by decide) (by decide) (by decide) (by decide) (by decide)

end Autoflags
